import Mathlib

/-!
Verification of the CITI file library against its specification.

The repository ships a Python FFI wrapper (`src/ffi/python/citi/record.py`)
and its test-suite; the core parser/serializer the wrapper binds to is not
part of the shipped sources, so the core is modelled here from the
specification (the line-oriented lexer of section 4.2, the parser state
machine of section 4.3, the serializer of section 4.4 and the error
taxonomy of section 4.1/6).  Numeric samples are modelled as exact
rationals.  The Python-side constructor and accessors are embedded
directly from `record.py`.
-/

namespace Citi

/-! ## Character-level utilities (lexical layer, spec section 4.2) -/

/-- Whitespace characters recognised inside a line. -/
def isWs (c : Char) : Bool := c = ' ' || c = '\t'

/-- Drop trailing whitespace and a trailing carriage return from a line. -/
def trimEnd (cs : List Char) : List Char :=
  (cs.reverse.dropWhile (fun c => isWs c || c = '\r')).reverse

/-- Drop leading whitespace. -/
def dropWs (cs : List Char) : List Char := cs.dropWhile isWs

/-- One folding step of the whitespace splitter. -/
def splitWsF (c : Char) (acc : List (List Char)) : List (List Char) :=
  if isWs c then [] :: acc
  else
    match acc with
    | [] => [[c]]
    | t :: ts => (c :: t) :: ts

/-- Split a character list at each whitespace character. -/
def splitWsRaw (cs : List Char) : List (List Char) :=
  cs.foldr splitWsF [[]]

/-- Whitespace-separated tokens of a character list. -/
def cwords (cs : List Char) : List (List Char) :=
  (splitWsRaw cs).filter (fun t => !t.isEmpty)

/-- Whitespace-separated tokens of a string. -/
def words (s : String) : List String :=
  (cwords s.data).map (fun t => ⟨t⟩)

/-- Take the first whitespace-free token and return it with the remainder. -/
def takeTok (cs : List Char) : List Char × List Char :=
  match cs with
  | [] => ([], [])
  | c :: rest =>
    if isWs c then ([], c :: rest)
    else
      let p := takeTok rest
      (c :: p.1, p.2)

/-! ## Numeric scanning (permissive real-number grammar, spec section 4.3) -/

/-- Scan a maximal run of decimal digits. -/
def scanDigits (cs : List Char) : List Char × List Char :=
  match cs with
  | [] => ([], [])
  | c :: rest =>
    if '0' ≤ c ∧ c ≤ '9' then
      let p := scanDigits rest
      (c :: p.1, p.2)
    else ([], c :: rest)

/-- Value of a digit run. -/
def digitsVal (ds : List Char) : Nat :=
  ds.foldl (fun a c => a * 10 + (c.toNat - 48)) 0

/-- Exact rational addition, written through `Rat.divInt` so that concrete
runs reduce. -/
def qAdd (a b : ℚ) : ℚ := Rat.divInt (a.num * b.den + b.num * a.den) (a.den * b.den)

/-- Exact rational subtraction through `Rat.divInt`. -/
def qSub (a b : ℚ) : ℚ := Rat.divInt (a.num * b.den - b.num * a.den) (a.den * b.den)

/-- Exact rational multiplication through `Rat.divInt`. -/
def qMul (a b : ℚ) : ℚ := Rat.divInt (a.num * b.num) (a.den * b.den)

/-- Exact rational division through `Rat.divInt`. -/
def qDiv (a b : ℚ) : ℚ := Rat.divInt (a.num * b.den) (a.den * b.num)

/-- Assemble a scanned real number: sign, integer digits, fraction digits,
exponent sign and exponent digits. -/
def mkVal (neg : Bool) (ip fp : List Char) (eneg : Bool) (e : Nat) : ℚ :=
  let m : Nat := digitsVal ip * 10 ^ fp.length + digitsVal fp
  let mi : Int := if neg then -(m : Int) else (m : Int)
  if eneg then Rat.divInt mi ((10 : Int) ^ (fp.length + e))
  else Rat.divInt (mi * (10 : Int) ^ e) ((10 : Int) ^ fp.length)

/-- Scan one real number (leading sign, decimal point, `e`/`E` exponent with
optional sign); return its value and the unconsumed remainder. -/
def scanReal (cs : List Char) : Option (ℚ × List Char) :=
  let sgn : Bool × List Char :=
    match cs with
    | '-' :: r => (true, r)
    | '+' :: r => (false, r)
    | _ => (false, cs)
  let ipp := scanDigits sgn.2
  let fpp : List Char × List Char :=
    match ipp.2 with
    | '.' :: r => scanDigits r
    | _ => ([], ipp.2)
  if ipp.1.isEmpty ∧ fpp.1.isEmpty then none
  else
    match fpp.2 with
    | c :: r =>
      if c = 'e' ∨ c = 'E' then
        let esgn : Bool × List Char :=
          match r with
          | '-' :: r2 => (true, r2)
          | '+' :: r2 => (false, r2)
          | _ => (false, r)
        let epp := scanDigits esgn.2
        if epp.1.isEmpty then none
        else some (mkVal sgn.1 ipp.1 fpp.1 esgn.1 (digitsVal epp.1), epp.2)
      else some (mkVal sgn.1 ipp.1 fpp.1 false 0, c :: r)
    | [] => some (mkVal sgn.1 ipp.1 fpp.1 false 0, [])

/-- Parse a whole token as a real number. -/
def realOfTok (t : List Char) : Option ℚ :=
  match scanReal t with
  | some (v, []) => some v
  | _ => none

/-- Parse a whole token as a natural number (digit run). -/
def natOfTok (t : List Char) : Option Nat :=
  match scanDigits t with
  | (ds, []) => if ds.isEmpty then none else some (digitsVal ds)
  | _ => none

/-! ## Tagged lines (lexer output, spec section 4.2) -/

/-- Recognised parser keywords; any other uppercase token maps to `other`. -/
inductive KW where
  | CITIFILE
  | NAME
  | COMMENT
  | VAR
  | DATA
  | VAR_LIST_BEGIN
  | VAR_LIST_END
  | SEG_LIST_BEGIN
  | SEG_LIST_END
  | SEG
  | BEGIN
  | END
  | other
deriving Repr, DecidableEq

/-- Map a keyword token to its recognised keyword. -/
def kwOf (w : String) : KW :=
  if w = "CITIFILE" then .CITIFILE
  else if w = "NAME" then .NAME
  else if w = "COMMENT" then .COMMENT
  else if w = "VAR" then .VAR
  else if w = "DATA" then .DATA
  else if w = "VAR_LIST_BEGIN" then .VAR_LIST_BEGIN
  else if w = "VAR_LIST_END" then .VAR_LIST_END
  else if w = "SEG_LIST_BEGIN" then .SEG_LIST_BEGIN
  else if w = "SEG_LIST_END" then .SEG_LIST_END
  else if w = "SEG" then .SEG
  else if w = "BEGIN" then .BEGIN
  else if w = "END" then .END
  else .other

/-- Classified line, as emitted by the lexical layer. -/
inductive TaggedLine where
  | blank
  | comment (text : String)
  | keyword (k : KW) (rest : String)
  | deviceLine (name : String) (rest : String)
  | numericSingle (a : ℚ)
  | numericPair (a b : ℚ)
  | otherLine (text : String)
deriving Repr, DecidableEq

/-- Characters allowed in a keyword token (uppercase letters and underscore). -/
def isKwChar (c : Char) : Bool := ('A' ≤ c && c ≤ 'Z') || c = '_'

/-- Parse a line body as one or two comma-separated real numbers. -/
def numLine (cs : List Char) : Option (ℚ ⊕ ℚ × ℚ) :=
  match scanReal cs with
  | none => none
  | some (a, r) =>
    match dropWs r with
    | [] => some (.inl a)
    | ',' :: r2 =>
      match scanReal (dropWs r2) with
      | some (b, r3) => if (dropWs r3).isEmpty then some (.inr (a, b)) else none
      | none => none
    | _ => none

/-- Classify one (newline-free) line, spec section 4.2: trailing whitespace
and carriage return are trimmed; `!` starts a comment captured after one
optional leading space; `#` starts a device line; an uppercase first token
is a keyword; otherwise the line is numeric content or unclassified. -/
def lexLine (raw : List Char) : TaggedLine :=
  let cs := dropWs (trimEnd raw)
  match cs with
  | [] => .blank
  | '!' :: rest =>
    let stripped :=
      match rest with
      | ' ' :: r => r
      | r => r
    .comment ⟨stripped⟩
  | '#' :: rest =>
    let p := takeTok rest
    .deviceLine ⟨p.1⟩ ⟨dropWs p.2⟩
  | _ =>
    let p := takeTok cs
    if !p.1.isEmpty && p.1.all isKwChar then
      .keyword (kwOf ⟨p.1⟩) ⟨dropWs p.2⟩
    else
      match numLine cs with
      | some (.inl a) => .numericSingle a
      | some (.inr ab) => .numericPair ab.1 ab.2
      | none => .otherLine ⟨cs⟩

/-- Accumulating splitter for `splitNL`: `cur` is the current line reversed,
`acc` the completed lines in reverse order. -/
def splitNLAux : List Char → List Char → List (List Char) → List (List Char)
  | [], cur, acc => (cur.reverse :: acc).reverse
  | c :: rest, cur, acc =>
    if c = '\n' then splitNLAux rest [] (cur.reverse :: acc)
    else splitNLAux rest (c :: cur) acc

/-- Split input into lines at each newline character. -/
def splitNL (cs : List Char) : List (List Char) :=
  splitNLAux cs [] []

/-- Lex a whole input string into tagged lines. -/
def lexLines (s : String) : List TaggedLine :=
  (splitNL s.data).map lexLine

/-! ## Record data model (spec section 3) -/

/-- Named group of instrument-specific entry lines. -/
structure Device where
  name : String
  entries : List String
deriving Repr, DecidableEq

/-- The sweep axis shared by all data arrays. -/
structure IndependentVariable where
  name : String
  format : String
  samples : List ℚ
deriving Repr, DecidableEq

/-- A named, formatted sequence of complex samples (pairs of reals). -/
structure DataArray where
  name : String
  format : String
  samples : List (ℚ × ℚ)
deriving Repr, DecidableEq

/-- One CITI document. -/
structure Record where
  version : String
  name : String
  comments : List String
  devices : List Device
  independent_variable : IndependentVariable
  data : List DataArray
deriving Repr, DecidableEq

/-- The all-empty record the parser starts from. -/
def emptyRecord : Record := ⟨"", "", [], [], ⟨"", "", []⟩, []⟩

/-! ## Parser state machine (spec section 4.3) -/

/-- Append a device entry, coalescing into an existing device of the same
name (first occurrence wins) or creating a new device at the end. -/
def addDeviceEntry (ds : List Device) (n e : String) : List Device :=
  match ds with
  | [] => [⟨n, [e]⟩]
  | d :: rest =>
    if d.name = n then { d with entries := d.entries ++ [e] } :: rest
    else d :: addDeviceEntry rest n e

/-- Replace the samples of the `i`-th data array. -/
def setDataSamples (ds : List DataArray) (i : Nat) (s : List (ℚ × ℚ)) :
    List DataArray :=
  match ds, i with
  | [], _ => []
  | d :: rest, 0 => { d with samples := s } :: rest
  | d :: rest, j + 1 => d :: setDataSamples rest j s

/-- Expand a segment triple to `points` linearly spaced samples from `start`
to `stop` inclusive; a single point yields just `start`. -/
def segExpand (start stop : ℚ) (points : Nat) : List ℚ :=
  match points with
  | 0 => []
  | 1 => [start]
  | p + 2 =>
    (List.range (p + 2)).map
      (fun (i : Nat) => qAdd start (qDiv (qMul (qSub stop start) (Rat.divInt (Int.ofNat i) 1))
        (Rat.divInt (Int.ofNat p + 1) 1)))

/-- Parse the rest of a `SEG` line as a `(start, stop, points)` triple. -/
def segTriple (rest : String) : Option (ℚ × ℚ × Nat) :=
  match cwords rest.data with
  | [ta, tb, tc] =>
    match realOfTok ta, realOfTok tb, natOfTok tc with
    | some a, some b, some n => some (a, b, n)
    | _, _, _ => none
  | _ => none

/-- Typed parse error: stable code and 1-based line number. -/
structure ParseError where
  code : Int
  line : Nat
deriving Repr, DecidableEq

/-- Parser mode: before `CITIFILE`, in the header, inside a
`VAR_LIST`/`SEG_LIST` block, or inside a data `BEGIN`/`END` block
accumulating sample pairs. -/
inductive Mode where
  | start
  | header
  | varList
  | segList
  | dataBody (buf : List (ℚ × ℚ))
deriving Repr, DecidableEq

/-- Parser state: record under construction, single-use tracking and the
count of data arrays already populated. -/
structure PState where
  acc : Record
  nameSeen : Bool
  varSeen : Bool
  ivListSeen : Bool
  filled : Nat
deriving Repr, DecidableEq

/-- Initial parser state. -/
def initState : PState := ⟨emptyRecord, false, false, false, 0⟩

/-- Set the record version (from `CITIFILE`). -/
def setVersion (st : PState) (v : String) : PState :=
  { st with acc := { st.acc with version := v } }

/-- Set the record name (from `NAME`). -/
def setName (st : PState) (n : String) : PState :=
  { st with acc := { st.acc with name := n }, nameSeen := true }

/-- Append a comment. -/
def pushComment (st : PState) (c : String) : PState :=
  { st with acc := { st.acc with comments := st.acc.comments ++ [c] } }

/-- Append a device entry. -/
def pushDevice (st : PState) (n e : String) : PState :=
  { st with acc := { st.acc with devices := addDeviceEntry st.acc.devices n e } }

/-- Record the independent variable name and format (from `VAR`). -/
def setIV (st : PState) (n f : String) : PState :=
  { st with
    acc := { st.acc with
      independent_variable := { st.acc.independent_variable with name := n, format := f } }
    varSeen := true }

/-- Append samples to the independent variable. -/
def appendIVSamples (st : PState) (qs : List ℚ) : PState :=
  { st with acc := { st.acc with
      independent_variable := { st.acc.independent_variable with
        samples := st.acc.independent_variable.samples ++ qs } } }

/-- Declare a data array with empty samples (from `DATA`). -/
def pushDataDecl (st : PState) (n f : String) : PState :=
  { st with acc := { st.acc with data := st.acc.data ++ [⟨n, f, []⟩] } }

/-- Mark that an independent-variable list block has been opened. -/
def markIVList (st : PState) : PState := { st with ivListSeen := true }

/-- Close the current data block: store the accumulated samples into the
next unpopulated data array. -/
def closeData (st : PState) (buf : List (ℚ × ℚ)) : PState :=
  { st with
    acc := { st.acc with data := setDataSamples st.acc.data st.filled buf }
    filled := st.filled + 1 }

/-- One transition of the parser state machine (spec section 4.3). -/
def step (ln : Nat) (m : Mode) (st : PState) (l : TaggedLine) :
    Except ParseError (Mode × PState) :=
  match m with
  | .start =>
    match l with
    | .blank => .ok (.start, st)
    | .keyword .CITIFILE rest => .ok (.header, setVersion st rest)
    | _ => .error ⟨-27, ln⟩
  | .header =>
    match l with
    | .blank => .ok (.header, st)
    | .comment t => .ok (.header, pushComment st t)
    | .deviceLine n e => .ok (.header, pushDevice st n e)
    | .keyword .CITIFILE _ => .error ⟨-26, ln⟩
    | .keyword .NAME rest =>
      if st.nameSeen then .error ⟨-26, ln⟩ else .ok (.header, setName st rest)
    | .keyword .COMMENT rest => .ok (.header, pushComment st rest)
    | .keyword .VAR rest =>
      if st.varSeen then .error ⟨-26, ln⟩
      else
        match words rest with
        | n :: f :: _ => .ok (.header, setIV st n f)
        | _ => .error ⟨-23, ln⟩
    | .keyword .DATA rest =>
      match words rest with
      | n :: f :: _ => .ok (.header, pushDataDecl st n f)
      | _ => .error ⟨-33, ln⟩
    | .keyword .VAR_LIST_BEGIN _ =>
      if st.ivListSeen then .error ⟨-25, ln⟩ else .ok (.varList, markIVList st)
    | .keyword .SEG_LIST_BEGIN _ =>
      if st.ivListSeen then .error ⟨-25, ln⟩ else .ok (.segList, markIVList st)
    | .keyword .BEGIN _ =>
      if st.filled < st.acc.data.length then .ok (.dataBody [], st)
      else .error ⟨-24, ln⟩
    | .keyword .END _ => .error ⟨-28, ln⟩
    | .keyword .VAR_LIST_END _ => .error ⟨-28, ln⟩
    | .keyword .SEG_LIST_END _ => .error ⟨-28, ln⟩
    | .keyword .SEG _ => .error ⟨-27, ln⟩
    | .keyword .other _ => .error ⟨-21, ln⟩
    | .numericSingle _ => .error ⟨-28, ln⟩
    | .numericPair _ _ => .error ⟨-28, ln⟩
    | .otherLine _ => .error ⟨-28, ln⟩
  | .varList =>
    match l with
    | .blank => .ok (.varList, st)
    | .numericSingle a => .ok (.varList, appendIVSamples st [a])
    | .keyword .VAR_LIST_END _ => .ok (.header, st)
    | .numericPair _ _ => .error ⟨-23, ln⟩
    | .otherLine _ => .error ⟨-23, ln⟩
    | _ => .error ⟨-27, ln⟩
  | .segList =>
    match l with
    | .blank => .ok (.segList, st)
    | .keyword .SEG rest =>
      match segTriple rest with
      | some t => .ok (.segList, appendIVSamples st (segExpand t.1 t.2.1 t.2.2))
      | none => .error ⟨-23, ln⟩
    | .keyword .SEG_LIST_END _ => .ok (.header, st)
    | _ => .error ⟨-27, ln⟩
  | .dataBody buf =>
    match l with
    | .blank => .ok (.dataBody buf, st)
    | .numericPair a b => .ok (.dataBody (buf ++ [(a, b)]), st)
    | .keyword .END _ => .ok (.header, closeData st buf)
    | .numericSingle _ => .error ⟨-23, ln⟩
    | .otherLine _ => .error ⟨-23, ln⟩
    | _ => .error ⟨-27, ln⟩

/-- Length invariant enforced at end of parse: when the independent
variable has samples, every data array has exactly as many. -/
def lengthsOk (r : Record) : Bool :=
  r.independent_variable.samples.length == 0 ||
    r.data.all (fun d => d.samples.length == r.independent_variable.samples.length)

/-- End-of-stream checks (spec section 4.3 ordering rules). -/
def finish (ln : Nat) (m : Mode) (st : PState) : Except ParseError Record :=
  match m with
  | .start => .error ⟨-30, ln⟩
  | .header =>
    if !st.nameSeen then .error ⟨-31, ln⟩
    else if !st.varSeen then .error ⟨-32, ln⟩
    else if st.acc.data.isEmpty then .error ⟨-33, ln⟩
    else if st.filled < st.acc.data.length then .error ⟨-33, ln⟩
    else if lengthsOk st.acc then .ok st.acc
    else .error ⟨-34, ln⟩
  | _ => .error ⟨-28, ln⟩

/-- Run the state machine over a list of tagged lines. -/
def steps (ln : Nat) (m : Mode) (st : PState) :
    List TaggedLine → Except ParseError (Nat × Mode × PState)
  | [] => .ok (ln, m, st)
  | l :: ls =>
    match step ln m st l with
    | .ok p => steps (ln + 1) p.1 p.2 ls
    | .error e => .error e

/-- Parse a stream of tagged lines into a record. -/
def parseLines (ls : List TaggedLine) : Except ParseError Record :=
  match steps 1 .start initState ls with
  | .ok t => finish t.1 t.2.1 t.2.2
  | .error e => .error e

/-- Parse a whole input string. -/
def parseString (s : String) : Except ParseError Record :=
  parseLines (lexLines s)

/-! ## Serializer (spec section 4.4) -/

/-- All data arrays share one length, which agrees with the independent
variable's when the latter is non-zero. -/
def dataLengthsAgree (r : Record) : Bool :=
  match r.data with
  | [] => true
  | d :: rest =>
    rest.all (fun e => e.samples.length == d.samples.length) &&
    (r.independent_variable.samples.length == 0 ||
     r.independent_variable.samples.length == d.samples.length)

/-- Modelled from the spec: pre-write validation of section 4.4 (the write
side of the missing core) — version and name non-empty, at least one data
array, every data array named and formatted, lengths agree. -/
def validate (r : Record) : Bool :=
  r.version != "" && r.name != "" && !r.data.isEmpty &&
  r.data.all (fun d => d.name != "" && d.format != "") &&
  dataLengthsAgree r

/-- Modelled from the spec: the serializer of section 4.4 (missing core),
expressed at the tagged-line level — `CITIFILE`, `NAME`, comments, device
entries, `VAR`, `DATA` declarations, the `VAR_LIST` block, then one
`BEGIN`/`END` block per data array. -/
def serializeLines (r : Record) : List TaggedLine :=
  [.keyword .CITIFILE r.version, .keyword .NAME r.name]
  ++ r.comments.map TaggedLine.comment
  ++ r.devices.flatMap (fun d => d.entries.map (fun e => .deviceLine d.name e))
  ++ [.keyword .VAR (r.independent_variable.name ++ " " ++
        r.independent_variable.format ++ " " ++
        toString r.independent_variable.samples.length)]
  ++ r.data.map (fun d => .keyword .DATA (d.name ++ " " ++ d.format))
  ++ [.keyword .VAR_LIST_BEGIN ""]
  ++ r.independent_variable.samples.map TaggedLine.numericSingle
  ++ [.keyword .VAR_LIST_END ""]
  ++ r.data.flatMap (fun d =>
       .keyword .BEGIN "" ::
         (d.samples.map (fun p => TaggedLine.numericPair p.1 p.2) ++ [.keyword .END ""]))

/-! ## Error taxonomy (spec sections 4.1 and 6) -/

/-- Modelled from the spec: the fixed error catalog of sections 4.1/6
(`get_error_description` of the missing core); the exact description
strings are pinned by `src/ffi/python/tests/test_error_codes.py`. -/
def get_error_description (c : Int) : String :=
  if c = 0 then "No error"
  else if c = -1 then "Unknown error"
  else if c = -2 then "Function argument is null"
  else if c = -3 then "Invalid UTF8 character found in string"
  else if c = -4 then "File not found for reading"
  else if c = -5 then "File permission denied for reading"
  else if c = -6 then "File connection refused for reading"
  else if c = -7 then "File connection reset while atttempting to read"
  else if c = -8 then "File connection aborted while attempting to read"
  else if c = -9 then "Connection to file failed while attempting to read"
  else if c = -10 then "File address is already in use"
  else if c = -11 then "File address is not available"
  else if c = -12 then "Connection pipe for file is broken"
  else if c = -13 then "File already exists"
  else if c = -14 then "File operation needs to block to complete"
  else if c = -15 then "Invalid input found for file operation"
  else if c = -16 then "Invalid data found during file operation"
  else if c = -17 then "File operation timed out"
  else if c = -18 then "File opertion could not be completed"
  else if c = -19 then "File operation interrupted"
  else if c = -20 then "`EOF` character was reached prematurely"
  else if c = -21 then "Keyword is not supported when parsing to record"
  else if c = -22 then "Regular expression could not be parsed into record"
  else if c = -23 then "Unable to parse number into record"
  else if c = -24 then "Record read error due to more data arrays than defined in header"
  else if c = -25 then "Record read error dude to independent variable defined twice"
  else if c = -26 then "Record read error due to single use keyword defined twice"
  else if c = -27 then "Record read error due to out of order keyword"
  else if c = -28 then "Record read error on line"
  else if c = -29 then "Record read error due to file IO"
  else if c = -30 then "Record read error due to undefined version"
  else if c = -31 then "Record read error due to undefined name"
  else if c = -32 then "Record read error due to undefined indepent variable"
  else if c = -33 then "Record read error due to undefined data name and format"
  else if c = -34 then "Record read error due to different lengths for independent variable and data array"
  else if c = -35 then "Record write error due to undefined version"
  else if c = -36 then "Record write error due to undefined name"
  else if c = -37 then "Record write error due to no name in one of data arrays"
  else if c = -38 then "Record write error due to no format in one of data arrays"
  else if c = -39 then "Record write error due to file IO"
  else if c = -40 then "An interior null byte was found in string"
  else if c = -41 then "Index is outside of acceptable bounds"
  else "Invalid error code"

/-! ## FFI surface (spec section 4.5) and the Python wrapper (from
`src/ffi/python/citi/record.py`) -/

/-- Modelled from the spec: `record_default` of the missing core — a new
empty record with defaulted version. -/
def record_default : Record := ⟨"A.01.00", "", [], [], ⟨"", "", []⟩, []⟩

/-- Modelled from the spec: `record_read` of the missing core — the file
argument is the file's content, or `none` when the path does not exist;
the result is the returned handle (a record or null) paired with the
last-error-code slot (`-4` for a missing file, the parse error's code on
parse failure, `0` on success). -/
def record_read (file : Option String) : Option Record × Int :=
  match file with
  | none => (none, -4)
  | some s =>
    match parseString s with
    | .ok r => (some r, 0)
    | .error e => (none, e.code)

/-- Modelled from the spec: `record_get_version` of the missing core. -/
def record_get_version (r : Record) : String := r.version

/-- Modelled from the spec: `record_set_version` of the missing core. -/
def record_set_version (r : Record) (v : String) : Record := { r with version := v }

/-- Modelled from the spec: `record_get_name` of the missing core. -/
def record_get_name (r : Record) : String := r.name

/-- Modelled from the spec: `record_set_name` of the missing core. -/
def record_set_name (r : Record) (n : String) : Record := { r with name := n }

/-- Outcome of the Python `Record.__init__`: a constructed object holding a
non-null handle, or a raised `NotImplementedError` with its message. -/
inductive InitResult where
  | ok (r : Record)
  | notImplementedError (msg : String)
deriving Repr, DecidableEq

/-- The null-handle check of `Record.__init__`
(`src/ffi/python/citi/record.py`, lines 186-193): when the FFI returned a
null pointer, raise `NotImplementedError` with the catalog description of
the last error code when that code is non-zero, and with the generic
message otherwise. -/
def pythonInit (obj : Option Record) (lastErrorCode : Int) : InitResult :=
  match obj with
  | some r => .ok r
  | none =>
    if lastErrorCode ≠ 0 then .notImplementedError (get_error_description lastErrorCode)
    else .notImplementedError "A null pointer was returned"

/-- The `Record(filename)` path of the Python constructor: call
`record_read`, then apply the null-handle check. -/
def pythonReadRecord (fileContent : Option String) : InitResult :=
  pythonInit (record_read fileContent).1 (record_read fileContent).2

/-! ## Regression files used by the test-suite (their bytes are not part of
the shipped sources; each is modelled from the spec's section 8 scenario
and the expectations of the named test file). -/

/-- Modelled from the spec: `display_memory.cti` (section 8 scenario 3;
expectations in `tests/test_read_display_memory_record.py`). -/
def displayMemoryFile : String :=
  "CITIFILE A.01.00\n" ++
  "NAME MEMORY\n" ++
  "#NA VERSION HP8510B.05.00\n" ++
  "#NA REGISTER 1\n" ++
  "VAR FREQ MAG 5\n" ++
  "DATA S RI\n" ++
  "BEGIN\n" ++
  "-1.31189E-3,-1.47980E-3\n" ++
  "-3.67867E-3,-0.67782E-3\n" ++
  "-3.43990E-3,0.58746E-3\n" ++
  "-2.70664E-4,-9.76175E-4\n" ++
  "0.65892E-4,-9.61571E-4\n" ++
  "END\n"

/-- Modelled from the spec: `list_cal_set.cti` (section 8 scenario 5;
expectations in `tests/test_read_list_cal_set_record.py`). -/
def listCalSetFile : String :=
  "CITIFILE A.01.00\n" ++
  "NAME CAL_SET\n" ++
  "VAR FREQ MAG 4\n" ++
  "#NA VERSION HP8510B.05.00\n" ++
  "#NA REGISTER 1\n" ++
  "#NA SWEEP_TIME 9.999987E-2\n" ++
  "#NA POWER1 1.0E1\n" ++
  "#NA POWER2 1.0E1\n" ++
  "#NA PARAMS 2\n" ++
  "#NA CAL_TYPE 3\n" ++
  "#NA POWER_SLOPE 0.0E0\n" ++
  "#NA SLOPE_MODE 0\n" ++
  "#NA TRIM_SWEEP 0\n" ++
  "#NA SWEEP_MODE 4\n" ++
  "#NA LOWPASS_FLAG -1\n" ++
  "#NA FREQ_INFO 1\n" ++
  "#NA SPAN 1000000000 3000000000 4\n" ++
  "#NA DUPLICATES 0\n" ++
  "#NA ARB_SEG 1000000000 1000000000 1\n" ++
  "#NA ARB_SEG 2000000000 3000000000 3\n" ++
  "DATA E[1] RI\n" ++
  "DATA E[2] RI\n" ++
  "DATA E[3] RI\n" ++
  "SEG_LIST_BEGIN\n" ++
  "SEG 1000000000 1000000000 1\n" ++
  "SEG 2000000000 3000000000 3\n" ++
  "SEG_LIST_END\n" ++
  "BEGIN\n" ++
  "1.12134E-3,1.73103E-3\n" ++
  "4.23145E-3,-5.36775E-3\n" ++
  "-0.56815E-3,5.32650E-3\n" ++
  "-1.85942E-3,-4.07981E-3\n" ++
  "END\n" ++
  "BEGIN\n" ++
  "2.03895E-2,-0.82674E-2\n" ++
  "-4.21371E-2,-0.24871E-2\n" ++
  "0.21038E-2,-3.06778E-2\n" ++
  "1.20315E-2,5.99861E-2\n" ++
  "END\n" ++
  "BEGIN\n" ++
  "4.45404E-1,4.31518E-1\n" ++
  "8.34777E-1,-1.33056E-1\n" ++
  "-7.09137E-1,5.58410E-1\n" ++
  "4.84252E-1,-8.07098E-1\n" ++
  "END\n"

/-- Modelled from the spec: `wvi_file.cti` (section 8 scenario 6;
expectations in `tests/test_read_wvi_record.py`). -/
def wviFile : String :=
  "CITIFILE A.01.01\n" ++
  "NAME Antonly001\n" ++
  "!SOURCE: 10095059066467\n" ++
  "!DATE: Fri, Jan 18, 2019, 14:14:44\n" ++
  "!ANTPOS_TX: 28.4E-3 0E+0 -16E-3 90 270 0\n" ++
  "!ANTPOS_RX: 28.4E-3 0E+0 -16E-3 90 270 0\n" ++
  "!ANT_TX: NAH_003\n" ++
  "!ANT_RX: NAH_003\n" ++
  "VAR Freq MAG 2\n" ++
  "DATA S11 RI\n" ++
  "VAR_LIST_BEGIN\n" ++
  "100000000\n" ++
  "200000000\n" ++
  "VAR_LIST_END\n" ++
  "BEGIN\n" ++
  "0.4508742392063141,0.4508742392063141\n" ++
  "-0.7245685458183289,-0.7245685458183289\n" ++
  "END\n"

/-- Record the test-suite expects for `display_memory.cti`. -/
def displayMemoryRecord : Record :=
  ⟨"A.01.00", "MEMORY", [],
   [⟨"NA", ["VERSION HP8510B.05.00", "REGISTER 1"]⟩],
   ⟨"FREQ", "MAG", []⟩,
   [⟨"S", "RI",
     [(mkRat (-131189) (10 ^ 8), mkRat (-147980) (10 ^ 8)),
      (mkRat (-367867) (10 ^ 8), mkRat (-67782) (10 ^ 8)),
      (mkRat (-343990) (10 ^ 8), mkRat 58746 (10 ^ 8)),
      (mkRat (-270664) (10 ^ 9), mkRat (-976175) (10 ^ 9)),
      (mkRat 65892 (10 ^ 9), mkRat (-961571) (10 ^ 9))]⟩]⟩

/-- Record the test-suite expects for `list_cal_set.cti`. -/
def listCalSetRecord : Record :=
  ⟨"A.01.00", "CAL_SET", [],
   [⟨"NA",
    ["VERSION HP8510B.05.00", "REGISTER 1", "SWEEP_TIME 9.999987E-2",
     "POWER1 1.0E1", "POWER2 1.0E1", "PARAMS 2", "CAL_TYPE 3",
     "POWER_SLOPE 0.0E0", "SLOPE_MODE 0", "TRIM_SWEEP 0", "SWEEP_MODE 4",
     "LOWPASS_FLAG -1", "FREQ_INFO 1", "SPAN 1000000000 3000000000 4",
     "DUPLICATES 0", "ARB_SEG 1000000000 1000000000 1",
     "ARB_SEG 2000000000 3000000000 3"]⟩],
   ⟨"FREQ", "MAG", [1000000000, 2000000000, 2500000000, 3000000000]⟩,
   [⟨"E[1]", "RI",
     [(mkRat 112134 (10 ^ 8), mkRat 173103 (10 ^ 8)),
      (mkRat 423145 (10 ^ 8), mkRat (-536775) (10 ^ 8)),
      (mkRat (-56815) (10 ^ 8), mkRat 532650 (10 ^ 8)),
      (mkRat (-185942) (10 ^ 8), mkRat (-407981) (10 ^ 8))]⟩,
    ⟨"E[2]", "RI",
     [(mkRat 203895 (10 ^ 7), mkRat (-82674) (10 ^ 7)),
      (mkRat (-421371) (10 ^ 7), mkRat (-24871) (10 ^ 7)),
      (mkRat 21038 (10 ^ 7), mkRat (-306778) (10 ^ 7)),
      (mkRat 120315 (10 ^ 7), mkRat 599861 (10 ^ 7))]⟩,
    ⟨"E[3]", "RI",
     [(mkRat 445404 (10 ^ 6), mkRat 431518 (10 ^ 6)),
      (mkRat 834777 (10 ^ 6), mkRat (-133056) (10 ^ 6)),
      (mkRat (-709137) (10 ^ 6), mkRat 558410 (10 ^ 6)),
      (mkRat 484252 (10 ^ 6), mkRat (-807098) (10 ^ 6))]⟩]⟩

/-- Record the test-suite expects for `wvi_file.cti`. -/
def wviRecord : Record :=
  ⟨"A.01.01", "Antonly001",
   ["SOURCE: 10095059066467",
    "DATE: Fri, Jan 18, 2019, 14:14:44",
    "ANTPOS_TX: 28.4E-3 0E+0 -16E-3 90 270 0",
    "ANTPOS_RX: 28.4E-3 0E+0 -16E-3 90 270 0",
    "ANT_TX: NAH_003",
    "ANT_RX: NAH_003"],
   [],
   ⟨"Freq", "MAG", [100000000, 200000000]⟩,
   [⟨"S11", "RI",
     [(mkRat 4508742392063141 (10 ^ 16), mkRat 4508742392063141 (10 ^ 16)),
      (mkRat (-7245685458183289) (10 ^ 16), mkRat (-7245685458183289) (10 ^ 16))]⟩]⟩

/-- Single non-empty whitespace-free token. -/
def isTok (s : String) : Bool :=
  !s.data.isEmpty && s.data.all (fun c => !isWs c)

end Citi

deriving instance DecidableEq for Except

namespace Citi

set_option maxRecDepth 10000

/-! ## Theorems -/

/-- C5: the default record (`record_default`, `Record()` with no filename)
has version `A.01.00`, empty name, no comments, no devices, the all-empty
independent variable and no data arrays. -/
theorem C5_default_record :
    record_default.version = "A.01.00" ∧ record_default.name = "" ∧
    record_default.comments = [] ∧ record_default.devices = [] ∧
    record_default.independent_variable = ⟨"", "", []⟩ ∧
    record_default.data = [] :=
  ⟨rfl, rfl, rfl, rfl, rfl, rfl⟩

/-- C3: every code in 0, -1, ..., -41 maps to its fixed catalog
description, and every other integer maps to the string signalling an
invalid error code. -/
theorem C3_error_descriptions :
    (∀ c : Int, 0 < c ∨ c < -41 → get_error_description c = "Invalid error code") ∧
    get_error_description 0 = "No error" ∧
    get_error_description (-1) = "Unknown error" ∧
    get_error_description (-2) = "Function argument is null" ∧
    get_error_description (-3) = "Invalid UTF8 character found in string" ∧
    get_error_description (-4) = "File not found for reading" ∧
    get_error_description (-5) = "File permission denied for reading" ∧
    get_error_description (-6) = "File connection refused for reading" ∧
    get_error_description (-7) = "File connection reset while atttempting to read" ∧
    get_error_description (-8) = "File connection aborted while attempting to read" ∧
    get_error_description (-9) = "Connection to file failed while attempting to read" ∧
    get_error_description (-10) = "File address is already in use" ∧
    get_error_description (-11) = "File address is not available" ∧
    get_error_description (-12) = "Connection pipe for file is broken" ∧
    get_error_description (-13) = "File already exists" ∧
    get_error_description (-14) = "File operation needs to block to complete" ∧
    get_error_description (-15) = "Invalid input found for file operation" ∧
    get_error_description (-16) = "Invalid data found during file operation" ∧
    get_error_description (-17) = "File operation timed out" ∧
    get_error_description (-18) = "File opertion could not be completed" ∧
    get_error_description (-19) = "File operation interrupted" ∧
    get_error_description (-20) = "`EOF` character was reached prematurely" ∧
    get_error_description (-21) = "Keyword is not supported when parsing to record" ∧
    get_error_description (-22) = "Regular expression could not be parsed into record" ∧
    get_error_description (-23) = "Unable to parse number into record" ∧
    get_error_description (-24) = "Record read error due to more data arrays than defined in header" ∧
    get_error_description (-25) = "Record read error dude to independent variable defined twice" ∧
    get_error_description (-26) = "Record read error due to single use keyword defined twice" ∧
    get_error_description (-27) = "Record read error due to out of order keyword" ∧
    get_error_description (-28) = "Record read error on line" ∧
    get_error_description (-29) = "Record read error due to file IO" ∧
    get_error_description (-30) = "Record read error due to undefined version" ∧
    get_error_description (-31) = "Record read error due to undefined name" ∧
    get_error_description (-32) = "Record read error due to undefined indepent variable" ∧
    get_error_description (-33) = "Record read error due to undefined data name and format" ∧
    get_error_description (-34) = "Record read error due to different lengths for independent variable and data array" ∧
    get_error_description (-35) = "Record write error due to undefined version" ∧
    get_error_description (-36) = "Record write error due to undefined name" ∧
    get_error_description (-37) = "Record write error due to no name in one of data arrays" ∧
    get_error_description (-38) = "Record write error due to no format in one of data arrays" ∧
    get_error_description (-39) = "Record write error due to file IO" ∧
    get_error_description (-40) = "An interior null byte was found in string" ∧
    get_error_description (-41) = "Index is outside of acceptable bounds" := by
  refine ⟨?_, rfl, rfl, rfl, rfl, rfl, rfl, rfl, rfl, rfl, rfl, rfl, rfl, rfl,
    rfl, rfl, rfl, rfl, rfl, rfl, rfl, rfl, rfl, rfl, rfl, rfl, rfl, rfl, rfl,
    rfl, rfl, rfl, rfl, rfl, rfl, rfl, rfl, rfl, rfl, rfl, rfl, rfl, rfl⟩
  intro c h
  unfold get_error_description
  repeat rw [if_neg (by omega)]

/-- Witness for C3 at concrete out-of-catalog codes. -/
theorem C3_error_descriptions_witness :
    get_error_description 1 = "Invalid error code" ∧
    get_error_description (-42) = "Invalid error code" :=
  ⟨C3_error_descriptions.1 1 (Or.inl (by decide)),
   C3_error_descriptions.1 (-42) (Or.inr (by decide))⟩

/-- C4: reading a missing file yields a null handle with last error code
-4, whose description is the file-not-found message, and the Python
constructor surfaces exactly that description as the raised error. -/
theorem C4_missing_file :
    record_read none = (none, -4) ∧
    get_error_description (-4) = "File not found for reading" ∧
    pythonReadRecord none = .notImplementedError "File not found for reading" :=
  ⟨rfl, rfl, rfl⟩

/-- C9: writing a string through the version or name setter and reading it
back through the matching getter returns exactly that string. -/
theorem C9_set_get_identity (r : Record) (s : String) :
    record_get_version (record_set_version r s) = s ∧
    record_get_name (record_set_name r s) = s :=
  ⟨rfl, rfl⟩

/-- C10: the Python constructor never produces an object from a null
handle — when the FFI returns null it raises, with the catalog description
of the last error code when that is non-zero and with the generic
null-pointer message when it is zero. -/
theorem C10_null_handle (code : Int) :
    (∀ r : Record, pythonInit none code ≠ InitResult.ok r) ∧
    (code ≠ 0 → pythonInit none code =
      .notImplementedError (get_error_description code)) ∧
    (code = 0 → pythonInit none code =
      .notImplementedError "A null pointer was returned") := by
  by_cases hc : code = 0 <;> simp [pythonInit, hc]

/-- Witness for C10 at concrete error codes. -/
theorem C10_null_handle_witness :
    pythonInit none (-4) = .notImplementedError "File not found for reading" ∧
    pythonInit none 0 = .notImplementedError "A null pointer was returned" := by
  constructor
  · rw [(C10_null_handle (-4)).2.1 (by decide)]
    decide
  · exact (C10_null_handle 0).2.2 rfl

/-- C8: the WVI regression file parses to version `A.01.01`, name
`Antonly001`, its six comments in file order (leading bang and one
optional space stripped), no devices, independent variable
`(Freq, MAG, [1e8, 2e8])` and a single `S11` data array in `RI` format
with two complex samples; the lexer strips the bang and one optional
space from a comment line. -/
theorem C8_wvi_record :
    parseString wviFile = .ok wviRecord ∧
    lexLine ("!abc def").data = .comment "abc def" ∧
    lexLine ("! abc def").data = .comment "abc def" := by
  refine ⟨by decide, by decide, by decide⟩

/-- Numerator of a rational equals the rational times its denominator. -/
theorem num_eq_mul_den (r : ℚ) : (r.num : ℚ) = r * r.den := by
  have hd : (r.den : ℚ) ≠ 0 := Nat.cast_ne_zero.mpr r.den_nz
  have h := Rat.num_div_den r
  rw [div_eq_iff hd] at h
  exact h

/-- Bridge: `qAdd` is rational addition. -/
theorem qAdd_eq (a b : ℚ) : qAdd a b = a + b := by
  have ha : (a.den : ℚ) ≠ 0 := Nat.cast_ne_zero.mpr a.den_nz
  have hb : (b.den : ℚ) ≠ 0 := Nat.cast_ne_zero.mpr b.den_nz
  rw [qAdd, Rat.divInt_eq_div]
  push_cast
  rw [div_eq_iff (mul_ne_zero ha hb), num_eq_mul_den a, num_eq_mul_den b]
  ring

/-- Bridge: `qSub` is rational subtraction. -/
theorem qSub_eq (a b : ℚ) : qSub a b = a - b := by
  have ha : (a.den : ℚ) ≠ 0 := Nat.cast_ne_zero.mpr a.den_nz
  have hb : (b.den : ℚ) ≠ 0 := Nat.cast_ne_zero.mpr b.den_nz
  rw [qSub, Rat.divInt_eq_div]
  push_cast
  rw [div_eq_iff (mul_ne_zero ha hb), num_eq_mul_den a, num_eq_mul_den b]
  ring

/-- Bridge: `qMul` is rational multiplication. -/
theorem qMul_eq (a b : ℚ) : qMul a b = a * b := by
  have ha : (a.den : ℚ) ≠ 0 := Nat.cast_ne_zero.mpr a.den_nz
  have hb : (b.den : ℚ) ≠ 0 := Nat.cast_ne_zero.mpr b.den_nz
  rw [qMul, Rat.divInt_eq_div]
  push_cast
  rw [div_eq_iff (mul_ne_zero ha hb), num_eq_mul_den a, num_eq_mul_den b]
  ring

/-- Bridge: `qDiv` is rational division. -/
theorem qDiv_eq (a b : ℚ) : qDiv a b = a / b := by
  rcases eq_or_ne b 0 with h0 | h0
  · subst h0
    simp [qDiv, Rat.divInt_eq_div]
  · have ha : (a.den : ℚ) ≠ 0 := Nat.cast_ne_zero.mpr a.den_nz
    have hbn : (b.num : ℚ) ≠ 0 := Int.cast_ne_zero.mpr (Rat.num_ne_zero.mpr h0)
    rw [qDiv, Rat.divInt_eq_div]
    push_cast
    rw [div_eq_iff (mul_ne_zero ha hbn)]
    field_simp
    rw [num_eq_mul_den a, num_eq_mul_den b]
    ring

/-- C6: a segment triple expands to exactly `points` samples spaced
linearly from `start` to `stop` inclusive (the `i`-th sample is
`start + (stop - start) * i / (points - 1)`, the first sample is `start`,
and for two or more points the last sample is `stop`); a triple with one
point emits the single sample `start`; the two segment triples of the
list-cal-set scenario expand to `[1e9, 2e9, 2.5e9, 3e9]`. -/
theorem C6_segment_expansion :
    (∀ start stop : ℚ, ∀ p : Nat, 1 ≤ p →
      (segExpand start stop p).length = p ∧
      (∀ i : Nat, i < p →
        (segExpand start stop p)[i]? =
          some (start + (stop - start) * i / ((p : ℚ) - 1))) ∧
      (segExpand start stop p).head? = some start ∧
      (2 ≤ p → (segExpand start stop p).getLast? = some stop)) ∧
    (∀ start stop : ℚ, segExpand start stop 1 = [start]) ∧
    segExpand 1000000000 1000000000 1 ++ segExpand 2000000000 3000000000 3 =
      [1000000000, 2000000000, 2500000000, 3000000000] := by
  refine ⟨?_, fun s t => rfl, by decide⟩
  intro start stop p hp
  match p, hp with
  | 1, _ =>
    refine ⟨rfl, ?_, rfl, by omega⟩
    intro i hi
    have hi0 : i = 0 := by omega
    subst hi0
    show some start = _
    norm_num
  | (n + 2), _ =>
    have hmap : segExpand start stop (n + 2) = (List.range (n + 2)).map
        (fun (i : Nat) => qAdd start (qDiv (qMul (qSub stop start) (Rat.divInt (Int.ofNat i) 1))
          (Rat.divInt (Int.ofNat n + 1) 1))) := rfl
    have hcast : ((n + 2 : ℕ) : ℚ) - 1 = (n : ℚ) + 1 := by push_cast; ring
    have hform2 : ∀ i : Nat,
        qAdd start (qDiv (qMul (qSub stop start) (Rat.divInt (Int.ofNat i) 1))
            (Rat.divInt (Int.ofNat n + 1) 1)) =
          start + (stop - start) * i / (((n + 2 : ℕ) : ℚ) - 1) := by
      intro i
      rw [qAdd_eq, qDiv_eq, qMul_eq, qSub_eq, Rat.divInt_one, Rat.divInt_one, hcast]
      push_cast [Int.ofNat_eq_coe]
      ring_nf
    have hlen : (segExpand start stop (n + 2)).length = n + 2 := by
      rw [hmap, List.length_map, List.length_range]
    have hidx : ∀ i : Nat, i < n + 2 →
        (segExpand start stop (n + 2))[i]? =
          some (start + (stop - start) * i / (((n + 2 : ℕ) : ℚ) - 1)) := by
      intro i hi
      rw [hmap, List.getElem?_eq_getElem (by simpa using hi)]
      simp only [List.getElem_map, List.getElem_range, hform2]
    refine ⟨hlen, hidx, ?_, ?_⟩
    · rw [List.head?_eq_getElem?, hidx 0 (by omega)]
      norm_num
    · intro _
      rw [List.getLast?_eq_getElem?, hlen, show n + 2 - 1 = n + 1 by omega,
        hidx (n + 1) (by omega), hcast]
      have hne : ((n : ℚ) + 1) ≠ 0 := by positivity
      rw [show ((n + 1 : ℕ) : ℚ) = (n : ℚ) + 1 by push_cast; ring]
      rw [mul_div_assoc, div_self hne, mul_one]
      congr 1
      ring

/-- Witness for C6 at a concrete segment triple. -/
theorem C6_segment_expansion_witness :
    (segExpand 2000000000 3000000000 3).length = 3 ∧
    segExpand 5 7 1 = [5] :=
  ⟨(C6_segment_expansion.1 2000000000 3000000000 3 (by decide)).1,
   C6_segment_expansion.2.1 5 7⟩

/-- Device names after an entry insertion: unchanged when the name already
occurs, appended otherwise. -/
theorem addDeviceEntry_names (ds : List Device) (n e : String) :
    (addDeviceEntry ds n e).map Device.name =
      if n ∈ ds.map Device.name then ds.map Device.name
      else ds.map Device.name ++ [n] := by
  induction ds with
  | nil => simp [addDeviceEntry]
  | cons d rest ih =>
    by_cases hdn : d.name = n
    · simp [addDeviceEntry, hdn]
    · have hnd : ¬(n = d.name) := fun hh => hdn hh.symm
      simp only [addDeviceEntry, if_neg hdn, List.map_cons, ih, List.mem_cons]
      by_cases hmem : n ∈ rest.map Device.name
      · simp [hmem, hnd]
      · simp [hmem, hnd]

/-- Inserting a device entry preserves distinctness of device names. -/
theorem addDeviceEntry_nodup (ds : List Device) (n e : String)
    (h : (ds.map Device.name).Nodup) :
    ((addDeviceEntry ds n e).map Device.name).Nodup := by
  rw [addDeviceEntry_names]
  split
  · exact h
  · rename_i hmem
    simp [List.nodup_append, h, hmem]

/-- A successful parser step never destroys distinctness of device names. -/
theorem step_nodup (ln : Nat) (m : Mode) (st : PState) (l : TaggedLine)
    (p : Mode × PState) (h : step ln m st l = .ok p)
    (hd : (st.acc.devices.map Device.name).Nodup) :
    (p.2.acc.devices.map Device.name).Nodup := by
  cases m <;> cases l <;>
    (try cases ‹KW›) <;>
    simp only [step] at h <;>
    (repeat' split at h) <;>
    first
      | exact Except.noConfusion h
      | (cases h; exact hd)
      | (cases h; exact addDeviceEntry_nodup _ _ _ hd)

/-- Running the machine preserves distinctness of device names. -/
theorem steps_nodup (ls : List TaggedLine) : ∀ (ln : Nat) (m : Mode) (st : PState)
    (t : Nat × Mode × PState), steps ln m st ls = .ok t →
    (st.acc.devices.map Device.name).Nodup →
    (t.2.2.acc.devices.map Device.name).Nodup := by
  induction ls with
  | nil =>
    intro ln m st t h hd
    simp only [steps] at h
    cases h
    exact hd
  | cons l ls ih =>
    intro ln m st t h hd
    rw [steps] at h
    cases hstep : step ln m st l with
    | error e => rw [hstep] at h; exact Except.noConfusion h
    | ok p =>
      rw [hstep] at h
      exact ih _ _ _ _ h (step_nodup ln m st l p hstep hd)

/-- The end-of-stream check only succeeds with the accumulated record, and
only when the length invariant holds. -/
theorem finish_ok (ln : Nat) (m : Mode) (st : PState) (r : Record)
    (h : finish ln m st = .ok r) : r = st.acc ∧ lengthsOk st.acc = true := by
  cases m <;> simp only [finish] at h <;> try exact Except.noConfusion h
  split_ifs at h with h1 h2 h3 h4 h5 <;> try exact Except.noConfusion h
  cases h
  exact ⟨rfl, h5⟩

/-- A successful parse yields the machine's accumulated record with the
length invariant satisfied. -/
theorem parseLines_ok (ls : List TaggedLine) (r : Record)
    (h : parseLines ls = .ok r) :
    (∃ t : Nat × Mode × PState, steps 1 .start initState ls = .ok t ∧ r = t.2.2.acc) ∧
    lengthsOk r = true := by
  unfold parseLines at h
  cases hs : steps 1 .start initState ls with
  | error e => rw [hs] at h; exact Except.noConfusion h
  | ok t =>
    rw [hs] at h
    have hf := finish_ok t.1 t.2.1 t.2.2 r h
    exact ⟨⟨t, rfl, hf.1⟩, by rw [hf.1]; exact hf.2⟩

/-- C1: every successful parse satisfies the length invariant — when the
independent variable has samples, each data array has exactly as many —
while the display-memory record shows that a record with zero independent
variable samples may still carry a non-empty data array. -/
theorem C1_length_invariant :
    (∀ ls : List TaggedLine, ∀ r : Record, parseLines ls = .ok r →
      0 < r.independent_variable.samples.length →
      ∀ d ∈ r.data, d.samples.length = r.independent_variable.samples.length) ∧
    (parseString displayMemoryFile = .ok displayMemoryRecord ∧
     displayMemoryRecord.independent_variable.samples.length = 0 ∧
     ∃ d ∈ displayMemoryRecord.data, 0 < d.samples.length) := by
  constructor
  · intro ls r h hpos d hd
    have hlen := (parseLines_ok ls r h).2
    simp only [lengthsOk, Bool.or_eq_true, beq_iff_eq, List.all_eq_true] at hlen
    rcases hlen with h0 | hall
    · omega
    · exact hall d hd
  · refine ⟨by decide, by decide, by decide⟩

/-- Witness for C1 on the parsed WVI record. -/
theorem C1_length_invariant_witness :
    ∀ d ∈ wviRecord.data,
      d.samples.length = wviRecord.independent_variable.samples.length :=
  C1_length_invariant.1 (lexLines wviFile) wviRecord (by decide) (by decide)

/-- C7: device entries coalesce by name — after any successful parse the
device names are pairwise distinct — and the list-cal-set file parses to
exactly one device `NA` holding its 17 entries in original line order
(with first-occurrence device ordering), as recorded in
`listCalSetRecord`. -/
theorem C7_device_coalescing :
    (∀ ls : List TaggedLine, ∀ r : Record, parseLines ls = .ok r →
      (r.devices.map Device.name).Nodup) ∧
    parseString listCalSetFile = .ok listCalSetRecord := by
  constructor
  · intro ls r h
    obtain ⟨⟨t, hs, hr⟩, _⟩ := parseLines_ok ls r h
    rw [hr]
    exact steps_nodup ls 1 .start initState t hs (by simp [initState, emptyRecord])
  · decide

/-- Witness for C7 on the parsed list-cal-set record. -/
theorem C7_device_coalescing_witness :
    (listCalSetRecord.devices.map Device.name).Nodup :=
  C7_device_coalescing.1 (lexLines listCalSetFile) listCalSetRecord (by decide)

/-! ## Round-trip development (C2): splitting lemmas for serialized tokens -/

/-- Folding the splitter over whitespace-free characters prepends them to
the current token. -/
theorem foldr_splitWsF (a : List Char) (ha : ∀ c ∈ a, isWs c = false) :
    ∀ t ts, a.foldr splitWsF (t :: ts) = (a ++ t) :: ts := by
  induction a with
  | nil => intro t ts; rfl
  | cons c a ih =>
    intro t ts
    have hc : isWs c = false := ha c (List.mem_cons_self c a)
    have ha2 : ∀ x ∈ a, isWs x = false := fun x hx => ha x (List.mem_cons_of_mem c hx)
    simp [List.foldr_cons, ih ha2, splitWsF, hc]

/-- The splitter cuts at a separating space. -/
theorem splitWsRaw_sep (a b : List Char) (ha : ∀ c ∈ a, isWs c = false) :
    splitWsRaw (a ++ ' ' :: b) = a :: splitWsRaw b := by
  unfold splitWsRaw
  rw [List.foldr_append]
  have hsp : List.foldr splitWsF [[]] (' ' :: b) = [] :: List.foldr splitWsF [[]] b := by
    simp [List.foldr_cons, splitWsF, isWs]
  rw [hsp, foldr_splitWsF a ha]
  simp

/-- The splitter leaves a whitespace-free list whole. -/
theorem splitWsRaw_single (a : List Char) (ha : ∀ c ∈ a, isWs c = false) :
    splitWsRaw a = [a] := by
  unfold splitWsRaw
  rw [foldr_splitWsF a ha]
  simp

/-- Tokens are non-empty. -/
theorem isTok_ne (s : String) (h : isTok s = true) : s.data ≠ [] := by
  simp only [isTok, Bool.and_eq_true, Bool.not_eq_true'] at h
  simpa using h.1

/-- Tokens are whitespace-free. -/
theorem isTok_nows (s : String) (h : isTok s = true) : ∀ c ∈ s.data, isWs c = false := by
  simp only [isTok, Bool.and_eq_true, List.all_eq_true, Bool.not_eq_true'] at h
  exact fun c hc => h.2 c hc

/-- Rebuilding a string from its characters is the identity. -/
theorem mk_data (s : String) : (⟨s.data⟩ : String) = s := rfl

/-- Tokenising cuts at a separating space after a token. -/
theorem cwords_sep (a b : List Char) (hne : a ≠ []) (ha : ∀ c ∈ a, isWs c = false) :
    cwords (a ++ ' ' :: b) = a :: cwords b := by
  unfold cwords
  rw [splitWsRaw_sep a b ha]
  simp [List.filter_cons, hne]

/-- Tokenising a single token yields that token. -/
theorem cwords_single (a : List Char) (hne : a ≠ []) (ha : ∀ c ∈ a, isWs c = false) :
    cwords a = [a] := by
  unfold cwords
  rw [splitWsRaw_single a ha]
  simp [hne]

/-- Splitting `x ++ " " ++ y ++ " " ++ z` starts with the tokens `x`, `y`. -/
theorem words_var (x y z : String) (hx : isTok x = true) (hy : isTok y = true) :
    words (x ++ " " ++ y ++ " " ++ z) = x :: y :: words z := by
  unfold words
  have hdata : (x ++ " " ++ y ++ " " ++ z).data =
      x.data ++ ' ' :: (y.data ++ ' ' :: z.data) := by
    have hsp : (" " : String).data = [' '] := rfl
    simp [String.data_append, hsp]
  rw [hdata, cwords_sep _ _ (isTok_ne x hx) (isTok_nows x hx),
    cwords_sep _ _ (isTok_ne y hy) (isTok_nows y hy), List.map_cons, List.map_cons,
    mk_data, mk_data]

/-- Splitting `x ++ " " ++ y` yields exactly the tokens `x` and `y`. -/
theorem words_pair (x y : String) (hx : isTok x = true) (hy : isTok y = true) :
    words (x ++ " " ++ y) = [x, y] := by
  unfold words
  have hdata : (x ++ " " ++ y).data = x.data ++ ' ' :: y.data := by
    have hsp : (" " : String).data = [' '] := rfl
    simp [String.data_append, hsp]
  rw [hdata, cwords_sep _ _ (isTok_ne x hx) (isTok_nows x hx),
    cwords_single y.data (isTok_ne y hy) (isTok_nows y hy)]
  simp [mk_data]

/-! ## Round-trip development (C2): running the machine over serialized chunks -/

/-- One successful step prepends to any continuation. -/
theorem steps_line {ln : Nat} {m : Mode} {st : PState} {l : TaggedLine}
    {m2 : Mode} {st2 : PState} (ys : List TaggedLine)
    (h : step ln m st l = .ok (m2, st2)) :
    steps ln m st (l :: ys) = steps (ln + 1) m2 st2 ys := by
  simp [steps, h]

/-- Serialized comments are consumed in order. -/
theorem steps_comments (cs : List String) : ∀ (ln : Nat) (st : PState) (ys : List TaggedLine),
    steps ln .header st (cs.map TaggedLine.comment ++ ys) =
      steps (ln + cs.length) .header
        { st with acc := { st.acc with comments := st.acc.comments ++ cs } } ys := by
  induction cs with
  | nil => intro ln st ys; simp
  | cons c cs ih =>
    intro ln st ys
    rw [List.map_cons, List.cons_append,
      steps_line _ (show step ln .header st (.comment c) =
        .ok (.header, pushComment st c) from rfl), ih]
    simp [pushComment, List.append_assoc, Nat.add_assoc, Nat.add_comm, Nat.add_left_comm]

/-- Serialized independent-variable samples are consumed in order. -/
theorem steps_samples (qs : List ℚ) : ∀ (ln : Nat) (st : PState) (ys : List TaggedLine),
    steps ln .varList st (qs.map TaggedLine.numericSingle ++ ys) =
      steps (ln + qs.length) .varList (appendIVSamples st qs) ys := by
  induction qs with
  | nil => intro ln st ys; simp [appendIVSamples]
  | cons q qs ih =>
    intro ln st ys
    rw [List.map_cons, List.cons_append,
      steps_line _ (show step ln .varList st (.numericSingle q) =
        .ok (.varList, appendIVSamples st [q]) from rfl), ih]
    simp [appendIVSamples, List.append_assoc, Nat.add_assoc, Nat.add_comm, Nat.add_left_comm]

/-- Serialized sample pairs accumulate into the block buffer in order. -/
theorem steps_pairs (ps : List (ℚ × ℚ)) : ∀ (ln : Nat) (st : PState)
    (buf : List (ℚ × ℚ)) (ys : List TaggedLine),
    steps ln (.dataBody buf) st (ps.map (fun p => TaggedLine.numericPair p.1 p.2) ++ ys) =
      steps (ln + ps.length) (.dataBody (buf ++ ps)) st ys := by
  induction ps with
  | nil => intro ln st buf ys; simp
  | cons p ps ih =>
    intro ln st buf ys
    rw [List.map_cons, List.cons_append,
      steps_line _ (show step ln (.dataBody buf) st (.numericPair p.1 p.2) =
        .ok (.dataBody (buf ++ [(p.1, p.2)]), st) from rfl), ih]
    simp [List.append_assoc, Nat.add_assoc, Nat.add_comm, Nat.add_left_comm]

/-- Inserting an entry for a fresh device name appends a new device. -/
theorem addDeviceEntry_fresh (ds : List Device) (n e : String)
    (h : n ∉ ds.map Device.name) : addDeviceEntry ds n e = ds ++ [⟨n, [e]⟩] := by
  induction ds with
  | nil => rfl
  | cons d rest ih =>
    simp only [List.map_cons, List.mem_cons, not_or] at h
    have hdn : ¬(d.name = n) := fun hh => h.1 hh.symm
    simp [addDeviceEntry, hdn, ih h.2]

/-- Inserting an entry for the last device grows its entry list. -/
theorem addDeviceEntry_grow (ds : List Device) (n : String) (acc : List String)
    (e : String) (h : n ∉ ds.map Device.name) :
    addDeviceEntry (ds ++ [⟨n, acc⟩]) n e = ds ++ [⟨n, acc ++ [e]⟩] := by
  induction ds with
  | nil => simp [addDeviceEntry]
  | cons d rest ih =>
    simp only [List.map_cons, List.mem_cons, not_or] at h
    have hdn : ¬(d.name = n) := fun hh => h.1 hh.symm
    simp [addDeviceEntry, hdn, ih h.2]

/-- Device lines for the device currently last accumulate its entries. -/
theorem steps_device_entries (es : List String) : ∀ (ln : Nat) (st : PState)
    (ds : List Device) (acc : List String) (n : String) (ys : List TaggedLine),
    st.acc.devices = ds ++ [⟨n, acc⟩] →
    n ∉ ds.map Device.name →
    steps ln .header st (es.map (TaggedLine.deviceLine n) ++ ys) =
      steps (ln + es.length) .header
        { st with acc := { st.acc with devices := ds ++ [⟨n, acc ++ es⟩] } } ys := by
  induction es with
  | nil =>
    intro ln st ds acc n ys hst hn
    simp only [List.map_nil, List.nil_append, List.append_nil, Nat.add_zero]
    rw [← hst]
    rfl
  | cons e es ih =>
    intro ln st ds acc n ys hst hn
    rw [List.map_cons, List.cons_append,
      steps_line _ (show step ln .header st (.deviceLine n e) =
        .ok (.header, pushDevice st n e) from rfl)]
    have hpd : (pushDevice st n e).acc.devices = ds ++ [⟨n, acc ++ [e]⟩] := by
      simp [pushDevice, hst, addDeviceEntry_grow ds n acc e hn]
    rw [ih (ln + 1) (pushDevice st n e) ds (acc ++ [e]) n ys hpd hn]
    simp [pushDevice, List.append_assoc, Nat.add_assoc, Nat.add_comm, Nat.add_left_comm]

/-- Device lines for a fresh device create it with its entries in order. -/
theorem steps_device_new (es : List String) (n : String) (ln : Nat) (st : PState)
    (ys : List TaggedLine) (hn : n ∉ st.acc.devices.map Device.name) (hne : es ≠ []) :
    steps ln .header st (es.map (TaggedLine.deviceLine n) ++ ys) =
      steps (ln + es.length) .header
        { st with acc := { st.acc with devices := st.acc.devices ++ [⟨n, es⟩] } } ys := by
  match es, hne with
  | e :: es2, _ =>
    rw [List.map_cons, List.cons_append,
      steps_line _ (show step ln .header st (.deviceLine n e) =
        .ok (.header, pushDevice st n e) from rfl)]
    have hpd : (pushDevice st n e).acc.devices = st.acc.devices ++ [⟨n, [e]⟩] := by
      simp [pushDevice, addDeviceEntry_fresh _ _ _ hn]
    rw [steps_device_entries es2 (ln + 1) (pushDevice st n e)
      st.acc.devices [e] n ys hpd hn]
    simp [pushDevice, List.length_cons, Nat.add_assoc, Nat.add_comm, Nat.add_left_comm]

/-- All serialized device chunks reconstruct the device list in order. -/
theorem steps_devices (devs : List Device) : ∀ (ln : Nat) (st : PState) (ys : List TaggedLine),
    ((st.acc.devices ++ devs).map Device.name).Nodup →
    (∀ d ∈ devs, d.entries ≠ []) →
    steps ln .header st
      (devs.flatMap (fun d => d.entries.map (TaggedLine.deviceLine d.name)) ++ ys) =
      steps (ln + (devs.flatMap (fun d => d.entries.map (TaggedLine.deviceLine d.name))).length)
        .header { st with acc := { st.acc with devices := st.acc.devices ++ devs } } ys := by
  induction devs with
  | nil =>
    intro ln st ys hnd hne
    simp
  | cons d rest ih =>
    intro ln st ys hnd hne
    have hfresh : d.name ∉ st.acc.devices.map Device.name := by
      intro hmem
      have : ¬((st.acc.devices ++ d :: rest).map Device.name).Nodup := by
        simp only [List.map_append, List.map_cons]
        intro hcontra
        rw [List.nodup_append] at hcontra
        exact absurd hmem (fun hm => (hcontra.2.2 hm) (List.mem_cons_self _ _))
      exact this hnd
    rw [List.flatMap_cons, List.append_assoc,
      steps_device_new d.entries d.name ln st _ hfresh (hne d (List.mem_cons_self d rest))]
    have hnd2 : ((({ st with acc := { st.acc with devices := st.acc.devices ++ [d] } }
        : PState).acc.devices ++ rest).map Device.name).Nodup := by
      simp only [List.append_assoc, List.singleton_append]
      exact hnd
    rw [ih (ln + d.entries.length)
      { st with acc := { st.acc with devices := st.acc.devices ++ [d] } } ys hnd2
      (fun x hx => hne x (List.mem_cons_of_mem d hx))]
    simp [List.flatMap_cons, List.length_append, List.length_map, List.append_assoc, Nat.add_assoc, Nat.add_comm, Nat.add_left_comm]

/-- Serialized `DATA` declarations append empty data arrays in order. -/
theorem steps_dataDecls (das : List DataArray) : ∀ (ln : Nat) (st : PState) (ys : List TaggedLine),
    (∀ d ∈ das, isTok d.name = true ∧ isTok d.format = true) →
    steps ln .header st
      (das.map (fun d => TaggedLine.keyword .DATA (d.name ++ " " ++ d.format)) ++ ys) =
      steps (ln + das.length) .header
        { st with acc := { st.acc with
          data := st.acc.data ++ das.map (fun d => ⟨d.name, d.format, []⟩) } } ys := by
  induction das with
  | nil => intro ln st ys h; simp
  | cons d rest ih =>
    intro ln st ys h
    have hd := h d (List.mem_cons_self d rest)
    have hstep : step ln .header st (.keyword .DATA (d.name ++ " " ++ d.format)) =
        .ok (.header, pushDataDecl st d.name d.format) := by
      simp [step, words_pair d.name d.format hd.1 hd.2]
    rw [List.map_cons, List.cons_append, steps_line _ hstep,
      ih (ln + 1) _ ys (fun x hx => h x (List.mem_cons_of_mem d hx))]
    simp [pushDataDecl, List.append_assoc, Nat.add_assoc, Nat.add_comm, Nat.add_left_comm]

/-- Updating the sample list at the index right after a prefix. -/
theorem setDataSamples_mid (done : List DataArray) (d : DataArray)
    (rest : List DataArray) (s : List (ℚ × ℚ)) :
    setDataSamples (done ++ d :: rest) done.length s =
      done ++ { d with samples := s } :: rest := by
  induction done with
  | nil => rfl
  | cons a done ih => simp [setDataSamples, ih]

/-- One serialized `BEGIN`/`END` block fills the next unpopulated array. -/
theorem steps_block (d : DataArray) (ln : Nat) (st : PState) (ys : List TaggedLine)
    (done pend : List DataArray)
    (hdata : st.acc.data = done ++ ({ d with samples := [] } :: pend))
    (hfill : st.filled = done.length) :
    steps ln .header st
      ((TaggedLine.keyword .BEGIN "" ::
        (d.samples.map (fun p => TaggedLine.numericPair p.1 p.2) ++
          [TaggedLine.keyword .END ""])) ++ ys) =
      steps (ln + (d.samples.length + 2)) .header
        { st with filled := st.filled + 1, acc := { st.acc with data := done ++ d :: pend } } ys := by
  have hlt : st.filled < st.acc.data.length := by
    rw [hfill, hdata]
    simp [List.length_append]
  have hb : step ln .header st (.keyword .BEGIN "") = .ok (.dataBody [], st) := by
    simp [step, hlt]
  rw [List.cons_append, steps_line _ hb, List.append_assoc, steps_pairs d.samples,
    List.nil_append, List.singleton_append,
    steps_line _ (show step (ln + 1 + d.samples.length) (.dataBody d.samples) st
      (.keyword .END "") = .ok (.header, closeData st d.samples) from rfl)]
  have hset : setDataSamples st.acc.data st.filled d.samples = done ++ d :: pend := by
    rw [hdata, hfill, setDataSamples_mid]
  simp [closeData, hset, Nat.add_assoc, Nat.add_comm, Nat.add_left_comm]

/-- All serialized data blocks fill the declared arrays in order. -/
theorem steps_blocks (das : List DataArray) : ∀ (ln : Nat) (st : PState)
    (done : List DataArray),
    st.acc.data = done ++ das.map (fun d => { d with samples := [] }) →
    st.filled = done.length →
    steps ln .header st
      (das.flatMap (fun d => TaggedLine.keyword .BEGIN "" ::
        (d.samples.map (fun p => TaggedLine.numericPair p.1 p.2) ++
          [TaggedLine.keyword .END ""]))) =
      .ok (ln + (das.flatMap (fun d => TaggedLine.keyword .BEGIN "" ::
          (d.samples.map (fun p => TaggedLine.numericPair p.1 p.2) ++
            [TaggedLine.keyword .END ""]))).length, .header,
        { st with filled := done.length + das.length, acc := { st.acc with data := done ++ das } }) := by
  induction das with
  | nil =>
    intro ln st done hdata hfill
    simp only [List.flatMap_nil, steps, List.length_nil, Nat.add_zero]
    have h1 : done ++ ([] : List DataArray) = st.acc.data := by simp [hdata]
    rw [h1, ← hfill]
  | cons d rest ih =>
    intro ln st done hdata hfill
    rw [List.map_cons] at hdata
    rw [List.flatMap_cons, steps_block d ln st _ done (rest.map (fun d => { d with samples := [] }))
      hdata hfill]
    have hdata2 : ({ st with filled := st.filled + 1, acc := { st.acc with data := done ++ d :: rest.map (fun d => { d with samples := [] }) } } : PState).acc.data =
        (done ++ [d]) ++ rest.map (fun d => { d with samples := [] }) := by
      simp [List.append_assoc]
    have hfill2 : ({ st with filled := st.filled + 1, acc := { st.acc with data := done ++ d :: rest.map (fun d => { d with samples := [] }) } } : PState).filled = (done ++ [d]).length := by
      simp [hfill]
    rw [ih _ _ (done ++ [d]) hdata2 hfill2]
    simp [List.flatMap_cons, List.length_append, List.length_map, List.length_cons,
      List.append_assoc, Nat.add_assoc, Nat.add_comm, Nat.add_left_comm]
    omega

/-- The serialized `CITIFILE` line is consumed from the start state. -/
theorem steps_citi_line {ln : Nat} {st : PState} (ys : List TaggedLine) (v : String) :
    steps ln .start st (TaggedLine.keyword .CITIFILE v :: ys) =
      steps (ln + 1) .header (setVersion st v) ys :=
  steps_line ys rfl

/-- The serialized `NAME` line is consumed when no name was seen yet. -/
theorem steps_name_line {ln : Nat} {st : PState} (ys : List TaggedLine) (nm : String)
    (hns : st.nameSeen = false) :
    steps ln .header st (TaggedLine.keyword .NAME nm :: ys) =
      steps (ln + 1) .header (setName st nm) ys := by
  apply steps_line
  simp [step, hns]

/-- The serialized `VAR` line records the token name and format. -/
theorem steps_var_line {ln : Nat} {st : PState} (ys : List TaggedLine) (n f z : String)
    (hn : isTok n = true) (hf : isTok f = true) (hvs : st.varSeen = false) :
    steps ln .header st (TaggedLine.keyword .VAR (n ++ " " ++ f ++ " " ++ z) :: ys) =
      steps (ln + 1) .header (setIV st n f) ys := by
  apply steps_line
  simp [step, hvs, words_var n f z hn hf]

/-- The serialized `VAR_LIST_BEGIN` line opens the sample block. -/
theorem steps_vlb_line {ln : Nat} {st : PState} (ys : List TaggedLine)
    (hil : st.ivListSeen = false) :
    steps ln .header st (TaggedLine.keyword .VAR_LIST_BEGIN "" :: ys) =
      steps (ln + 1) .varList (markIVList st) ys := by
  apply steps_line
  simp [step, hil]

/-- The serialized `VAR_LIST_END` line closes the sample block. -/
theorem steps_vle_line {ln : Nat} {st : PState} (ys : List TaggedLine) :
    steps ln .varList st (TaggedLine.keyword .VAR_LIST_END "" :: ys) =
      steps (ln + 1) .header st ys :=
  steps_line ys rfl

/-- End-of-stream success, given all the final checks. -/
theorem finish_success (ln : Nat) (st : PState)
    (h1 : st.nameSeen = true) (h2 : st.varSeen = true)
    (h3 : st.acc.data.isEmpty = false) (h4 : ¬ st.filled < st.acc.data.length)
    (h5 : lengthsOk st.acc = true) :
    finish ln .header st = .ok st.acc := by
  simp [finish, h1, h2, h3, h4, h5]

/-- Pre-write validation implies the parser's final length check. -/
theorem validate_lengthsOk (r : Record) (h : validate r = true) : lengthsOk r = true := by
  have h5 : dataLengthsAgree r = true := by
    simp only [validate, Bool.and_eq_true] at h
    exact h.2
  simp only [lengthsOk, Bool.or_eq_true, beq_iff_eq, List.all_eq_true]
  cases hd : r.data with
  | nil => simp
  | cons d rest =>
    simp only [dataLengthsAgree, hd, Bool.and_eq_true, Bool.or_eq_true, beq_iff_eq,
      List.all_eq_true] at h5
    rcases h5 with ⟨hall, hiv0 | hivd⟩
    · exact Or.inl hiv0
    · refine Or.inr ?_
      intro x hx
      rcases List.mem_cons.mp hx with hxd | hxr
      · rw [hxd, hivd]
      · rw [hall x hxr, hivd]

/-- C2 (amended): for every record passing pre-write validation whose
independent-variable name and format and data-array names and formats are
single whitespace-free tokens, whose device names are pairwise distinct
and whose devices each carry at least one entry, parsing the serializer's
output yields the record back unchanged. -/
theorem C2_round_trip_amended (r : Record)
    (hv : validate r = true)
    (hivn : isTok r.independent_variable.name = true)
    (hivf : isTok r.independent_variable.format = true)
    (hda : ∀ d ∈ r.data, isTok d.name = true ∧ isTok d.format = true)
    (hdev : (r.devices.map Device.name).Nodup)
    (hde : ∀ d ∈ r.devices, d.entries ≠ []) :
    parseLines (serializeLines r) = .ok r := by
  have hlen : lengthsOk r = true := validate_lengthsOk r hv
  obtain ⟨v, nm, cm, dv, ⟨ivn, ivf, ivs⟩, da⟩ := r
  have hdne : da ≠ [] := by
    intro h0
    rw [h0] at hv
    simp [validate] at hv
  unfold parseLines serializeLines
  simp only [List.cons_append, List.nil_append, List.append_assoc]
  rw [steps_citi_line, steps_name_line _ _ rfl, steps_comments cm]
  rw [steps_devices dv]
  rotate_left
  · exact hdev
  · exact hde
  rw [steps_var_line _ _ _ _ hivn hivf rfl]
  rw [steps_dataDecls da]
  rotate_left
  · exact hda
  rw [steps_vlb_line _ rfl, steps_samples ivs, steps_vle_line]
  rw [steps_blocks da _ _ []]
  rotate_left
  · rfl
  · rfl
  dsimp only
  rw [finish_success]
  rotate_left
  · rfl
  · rfl
  · simp [hdne]
  · simp
  · exact hlen
  rfl

/-- Counterexample to C2 as stated: this record passes pre-write
validation, yet its independent-variable name contains a space, so
serializing flattens it into the whitespace-separated `VAR` line and
re-parsing returns a different record. -/
theorem C2_round_trip_counterexample :
    validate ⟨"A.01.00", "N", [], [], ⟨"A B", "MAG", [1]⟩, [⟨"S", "RI", [(1, 2)]⟩]⟩ = true ∧
    parseLines (serializeLines
      ⟨"A.01.00", "N", [], [], ⟨"A B", "MAG", [1]⟩, [⟨"S", "RI", [(1, 2)]⟩]⟩) =
      .ok ⟨"A.01.00", "N", [], [], ⟨"A", "B", [1]⟩, [⟨"S", "RI", [(1, 2)]⟩]⟩ ∧
    (⟨"A.01.00", "N", [], [], ⟨"A", "B", [1]⟩, [⟨"S", "RI", [(1, 2)]⟩]⟩ : Record) ≠
      ⟨"A.01.00", "N", [], [], ⟨"A B", "MAG", [1]⟩, [⟨"S", "RI", [(1, 2)]⟩]⟩ := by
  refine ⟨by decide, by decide, by decide⟩

/-- Witness for the amended C2 at a concrete valid record. -/
theorem C2_round_trip_amended_witness :
    parseLines (serializeLines
      ⟨"A.01.00", "CAL", ["a comment"], [⟨"NA", ["REGISTER 1"]⟩],
        ⟨"FREQ", "MAG", [1, 2]⟩,
        [⟨"S[1,1]", "RI", [(1, 2), (3, 4)]⟩]⟩) =
      .ok ⟨"A.01.00", "CAL", ["a comment"], [⟨"NA", ["REGISTER 1"]⟩],
        ⟨"FREQ", "MAG", [1, 2]⟩,
        [⟨"S[1,1]", "RI", [(1, 2), (3, 4)]⟩]⟩ :=
  C2_round_trip_amended _ (by decide) (by decide) (by decide)
    (by decide) (by decide) (by decide)

end Citi
